import Mathlib

set_option maxHeartbeats 1000000

namespace GPCF

/- Shallow embedding of the Google Photos clipboard-fix extension:
   the content script (URL normalizer, single-slot raster cache,
   acquisition pipeline, focus wait, context-menu handler) and the
   background service worker (privileged fetch with a 403 variant
   retry). URLs are modelled as lists of characters, blobs as a MIME
   type together with raw bytes, and the asynchronous collaborators
   (canvas export, background messaging, DOM image loading, clipboard
   write) as explicit function parameters. -/

/-- Raw image data together with its declared MIME type. -/
structure Blob where
  type : String
  data : List Nat
deriving DecidableEq

/-- The fields of an on-page img element that the content script inspects. -/
structure ImgEl where
  complete : Bool
  naturalWidth : Nat
  naturalHeight : Nat
deriving DecidableEq

/- ### URL Normalizer -/

/-- Line terminators, which the dot of a JavaScript regular expression
does not match. -/
def isLineTerm (c : Char) : Bool :=
  c == '\n' || c == '\r' || c == '\u2028' || c == '\u2029'

/-- Every character of the list can be consumed by the dot of a
JavaScript regular expression. -/
def tailOk : List Char → Bool
  | [] => true
  | c :: r => !isLineTerm c && tailOk r

/-- The list starts with an equals sign followed by the tag character:
the substring sought by the includes tests of upgradeUrl. -/
def startsTag (t : Char) : List Char → Bool
  | [] => false
  | [_] => false
  | a :: c :: _ => a == '=' && c == t

/-- The anchored pattern equals-tag-digits-rest-of-line matches the
whole list, mirroring when the regular expression of upgradeUrl
(equals sign, tag, one or more digits, then dot-star-dollar) matches
at this position of the string. -/
def matchTag (t : Char) : List Char → Bool
  | [] => false
  | [_] => false
  | [_, _] => false
  | a :: c :: d :: r => a == '=' && c == t && d.isDigit && tailOk r

/-- Leftmost-match replacement: the first position where the anchored
pattern matches is rewritten to rep, which runs to the end of the
string, modelling String replace with the suffix regular expressions
of upgradeUrl. -/
def replaceTag (t : Char) (rep : List Char) : List Char → List Char
  | [] => []
  | c :: r => if matchTag t (c :: r) then rep else c :: replaceTag t rep r

/-- The list contains the two-character substring equals-tag,
modelling url.includes of upgradeUrl. -/
def hasTag (t : Char) : List Char → Bool
  | [] => false
  | c :: r => startsTag t (c :: r) || hasTag t r

/-- The list contains an equals sign, modelling the final includes
test of upgradeUrl. -/
def hasEq : List Char → Bool
  | [] => false
  | c :: r => c == '=' || hasEq r

/-- Replacement text for the w-suffix rewrite; also the default suffix
appended by upgradeUrl. -/
def wRepl : List Char := "=w2048-h2048-no".toList

/-- Replacement text for the s-suffix rewrite of upgradeUrl. -/
def sRepl : List Char := "=s2048-no".toList

/-- upgradeUrl from the content script: rewrite a w-size suffix, else
an s-size suffix, else return the url unchanged when it contains an
equals sign, else append the default suffix. -/
def upgradeUrl (url : List Char) : List Char :=
  if hasTag 'w' url then replaceTag 'w' wRepl url
  else if hasTag 's' url then replaceTag 's' sRepl url
  else if hasEq url then url
  else url ++ wRepl

/- ### Acquisition pipeline -/

/-- The asynchronous collaborators of the acquisition pipeline: canvas
export of an on-page element (method A), the background-worker fetch
round trip (method B), and the crossOrigin image load with canvas
export (method C). An error value models a rejected promise. -/
structure FetchEnv where
  toBlobOnPage : ImgEl → Except String Blob
  fetchViaBackground : List Char → Except String Blob
  fetchViaDomCanvas : List Char → Except String Blob

/-- grabFromElement, method A: the readiness check of the source
followed by the canvas draw and export. -/
def grabFromElement (env : FetchEnv) (imgEl : ImgEl) : Except String Blob :=
  if !imgEl.complete || imgEl.naturalWidth == 0 then Except.error "Image element not ready"
  else env.toBlobOnPage imgEl

/-- Which fetch strategies a run of the pipeline attempted. -/
inductive Strategy where
  | elemRead
  | privFetch
  | domCanvas
deriving DecidableEq

/-- The url-guarded tail of fetchImageBlob: method B, then method C,
each behind the truthiness test of url, then the aggregate throw. The
second component records the strategies attempted, in order. -/
def fetchViaUrlMethods (env : FetchEnv) (url : Option (List Char)) :
    Except String Blob × List Strategy :=
  match url with
  | none => (Except.error "All fetch methods failed", [])
  | some u =>
    if u.isEmpty then (Except.error "All fetch methods failed", [])
    else
      match env.fetchViaBackground u with
      | Except.ok b => (Except.ok b, [Strategy.privFetch])
      | Except.error _ =>
        match env.fetchViaDomCanvas u with
        | Except.ok b => (Except.ok b, [Strategy.privFetch, Strategy.domCanvas])
        | Except.error _ =>
          (Except.error "All fetch methods failed", [Strategy.privFetch, Strategy.domCanvas])

/-- fetchImageBlob from the content script: method A when an element
is present, then methods B and C when a url is present, stopping at
the first success; throws the aggregate failure when every attempted
method failed. Paired with the list of attempted strategies. -/
def fetchImageBlob (env : FetchEnv) (imgEl : Option ImgEl) (url : Option (List Char)) :
    Except String Blob × List Strategy :=
  match imgEl with
  | none => fetchViaUrlMethods env url
  | some el =>
    match grabFromElement env el with
    | Except.ok b => (Except.ok b, [Strategy.elemRead])
    | Except.error _ =>
      let r := fetchViaUrlMethods env url
      (r.1, Strategy.elemRead :: r.2)

/- ### Background service worker -/

/-- An HTTP response as seen by the background worker. -/
structure HttpResp where
  status : Nat
  body : Blob

/-- The network as seen by the background worker: fetch with
credentials included and plain fetch; an error value models a thrown
fetch. -/
structure Net where
  fetchCred : List Char → Except String HttpResp
  fetchPlain : List Char → Except String HttpResp

/-- Response.ok of the fetch API: status in the 200 to 299 range. -/
def respOk (status : Nat) : Bool := decide (200 ≤ status) && decide (status ≤ 299)

/-- The pattern is an initial segment of the list. -/
def matchesAt : List Char → List Char → Bool
  | [], _ => true
  | _ :: _, [] => false
  | p :: ps, c :: cs => p == c && matchesAt ps cs

/-- First-occurrence replacement of a literal pattern, modelling
String replace with the literal regular expression of the 403
fallback. -/
def replaceFirstStr (pat rep : List Char) : List Char → List Char
  | [] => []
  | c :: r =>
    if matchesAt pat (c :: r) then rep ++ (c :: r).drop pat.length
    else c :: replaceFirstStr pat rep r

/-- The 403 fallback variant of a url: its first occurrence of the
no-gm marker replaced by the plain no marker. -/
def noGmAlt (u : List Char) : List Char :=
  replaceFirstStr ("-no-gm".toList) ("-no".toList) u

/-- The fetchImage handler of the background service worker: fetch
with credentials, retrying without credentials when the first fetch
throws; on a non-ok response, retry the no-gm variant url with
credentials when the status is 403, else fail with the status; the
FileReader data-url round trip performed on the body is modelled as
the identity on the blob. -/
def bgFetchImage (net : Net) (u : List Char) : Except String Blob :=
  match (match net.fetchCred u with
         | Except.ok r => Except.ok r
         | Except.error _ => net.fetchPlain u : Except String HttpResp) with
  | Except.error e => Except.error e
  | Except.ok resp =>
    if respOk resp.status then Except.ok resp.body
    else if resp.status == 403 then
      match net.fetchCred (noGmAlt u) with
      | Except.error e => Except.error e
      | Except.ok resp2 =>
        if respOk resp2.status then Except.ok resp2.body
        else Except.error "HTTP 403 on both URL variants"
    else Except.error ("HTTP " ++ toString resp.status)

/- ### Format normalizer -/

/-- ensurePng from the content script: a blob already declaring the
png type is returned as is; otherwise the bitmap decode and canvas
re-encode pipeline, modelled by the reencode collaborator, runs. -/
def ensurePng (reencode : Blob → Except String Blob) (b : Blob) : Except String Blob :=
  if b.type = "image/png" then Except.ok b else reencode b

/- ### Single-slot cache and prefetch -/

/-- The three module-level cache variables of the content script. -/
structure CacheState where
  cachedBlob : Option Blob
  cachedUrl : Option (List Char)
  targetImgElement : Option ImgEl
deriving DecidableEq

/-- JavaScript truthiness of the optional element: a DOM element is
always truthy. -/
def elTruthy : Option ImgEl → Bool
  | none => false
  | some _ => true

/-- JavaScript truthiness of the optional url: null and the empty
string are falsy. -/
def urlTruthy : Option (List Char) → Bool
  | none => false
  | some u => !u.isEmpty

/-- JavaScript truthiness of the optional cached blob. -/
def blobTruthy : Option Blob → Bool
  | none => false
  | some _ => true

/-- The synchronous part of prefetch, up to its first await: the two
early returns, then the eager invalidation that clears the blob slot
and installs the new url and element. Returns the new state and
whether a fetch was initiated. -/
def prefetchStart (s : CacheState) (imgEl : Option ImgEl) (url : Option (List Char)) :
    CacheState × Bool :=
  if !elTruthy imgEl && !urlTruthy url then (s, false)
  else if url == s.cachedUrl && blobTruthy s.cachedBlob then (s, false)
  else ({ cachedBlob := none, cachedUrl := url, targetImgElement := imgEl }, true)

/-- The continuation of prefetch after its awaited fetch settles:
result is some png on success and none when the fetch or the png
conversion threw. The captured url is compared against the current
cachedUrl before the slot is refilled. -/
def prefetchComplete (s : CacheState) (capturedUrl : Option (List Char))
    (result : Option Blob) : CacheState :=
  match result with
  | none => s
  | some png =>
    if s.cachedUrl == capturedUrl then { s with cachedBlob := some png } else s

/- ### Focus wait and context-menu handler -/

/-- One step of the polling loop of the context-menu handler: focusAt
gives the focus state observed at each 50 millisecond tick; fuel
bounds the recursion and is chosen large enough that the 2000
millisecond timeout always fires first. -/
def awaitFocusGo (focusAt : Nat → Bool) : Nat → Nat → Bool
  | _, 0 => false
  | tick, fuel + 1 =>
    if focusAt tick then true
    else if 50 * tick > 2000 then false
    else awaitFocusGo focusAt (tick + 1) fuel

/-- The focus wait of the context-menu handler: poll the document
focus state every 50 milliseconds until it is observed true or more
than 2000 milliseconds have elapsed. -/
def awaitFocus (focusAt : Nat → Bool) : Bool :=
  awaitFocusGo focusAt 1 41

/-- What the context-menu handler reports: the response sent back to
the background worker, the toast shown, and whether the clipboard
write was attempted. -/
structure CtxOutcome where
  ok : Bool
  toastMsg : String
  toastIsError : Bool
  clipboardAttempted : Bool
deriving DecidableEq

/-- The copyImageFromContextMenu message handler: wait for focus when
the document is unfocused, reporting a precondition failure on
timeout; otherwise acquire a png (cached, or fetched and converted,
both modelled by getBlob) and hand it to writeToClipboard, modelled by
write. -/
def copyImageFromContextMenu (hasFocus0 : Bool) (focusAt : Nat → Bool)
    (getBlob : Except String Blob) (write : Blob → Except String Unit) : CtxOutcome :=
  if !hasFocus0 && !awaitFocus focusAt then
    { ok := false, toastMsg := "✗ Page lost focus — try refreshing the page and retry",
      toastIsError := true, clipboardAttempted := false }
  else
    match getBlob with
    | Except.error msg =>
      { ok := false, toastMsg := "✗ " ++ msg, toastIsError := true, clipboardAttempted := false }
    | Except.ok blob =>
      match write blob with
      | Except.ok _ =>
        { ok := true, toastMsg := "✓ Image copied!", toastIsError := false,
          clipboardAttempted := true }
      | Except.error e =>
        { ok := false, toastMsg := "✗ " ++ e, toastIsError := true, clipboardAttempted := true }

/- ### Lemmas about the URL normalizer -/

theorem isDigit_not_lineTerm (c : Char) (h : c.isDigit = true) : isLineTerm c = false := by
  cases hl : isLineTerm c
  · rfl
  · exfalso
    simp only [isLineTerm, Bool.or_eq_true, beq_iff_eq] at hl
    rcases hl with ((h1 | h1) | h1) | h1 <;> subst h1 <;> exact absurd h (by decide)

theorem matchTag_shape (t : Char) (l : List Char) (h : matchTag t l = true) :
    ∃ d r, l = '=' :: t :: d :: r ∧ d.isDigit = true ∧ tailOk r = true := by
  cases l with
  | nil => simp [matchTag] at h
  | cons a l1 =>
    cases l1 with
    | nil => simp [matchTag] at h
    | cons c l2 =>
      cases l2 with
      | nil => simp [matchTag] at h
      | cons d r =>
        simp only [matchTag, Bool.and_eq_true, beq_iff_eq] at h
        obtain ⟨⟨⟨ha, hc⟩, hd⟩, hr⟩ := h
        subst ha; subst hc
        exact ⟨d, r, rfl, hd, hr⟩

theorem matchTag_tailOk (t : Char) (hlt : isLineTerm t = false) (l : List Char)
    (h : matchTag t l = true) : tailOk l = true := by
  obtain ⟨d, r, rfl, hd, hr⟩ := matchTag_shape t l h
  have h1 : isLineTerm '=' = false := by decide
  have h2 : isLineTerm d = false := isDigit_not_lineTerm d hd
  simp [tailOk, h1, h2, hlt, hr]

theorem tailOk_replaceTag (t : Char) (rep : List Char) (hlt : isLineTerm t = false) :
    ∀ l : List Char, tailOk (replaceTag t rep l) = true → tailOk l = true := by
  intro l
  induction l with
  | nil => intro _; rfl
  | cons c r ih =>
    intro h
    by_cases hm : matchTag t (c :: r) = true
    · exact matchTag_tailOk t hlt (c :: r) hm
    · rw [replaceTag, if_neg hm] at h
      rw [tailOk, Bool.and_eq_true] at h
      rw [tailOk, Bool.and_eq_true]
      exact ⟨h.1, ih h.2⟩

theorem matchTag_head_ne (t a : Char) (r : List Char) (ha : (a == '=') = false) :
    matchTag t (a :: r) = false := by
  cases r with
  | nil => rfl
  | cons c r2 =>
    cases r2 with
    | nil => rfl
    | cons d r3 => simp [matchTag, ha]

theorem replaceTag_rep (t : Char) (rep : List Char) (hrep : matchTag t rep = true) :
    replaceTag t rep rep = rep := by
  cases rep with
  | nil => simp [matchTag] at hrep
  | cons a rr => rw [replaceTag, if_pos hrep]

theorem matchTag_cons_replace (t : Char) (rep : List Char)
    (hrep : matchTag t rep = true) (ht : t ≠ '=') (hlt : isLineTerm t = false) :
    ∀ (c : Char) (r : List Char),
      matchTag t (c :: replaceTag t rep r) = true → matchTag t (c :: r) = true := by
  intro c r h
  obtain ⟨d, r2, hsh, hd, hr2⟩ := matchTag_shape t _ h
  injection hsh with hc htail
  subst hc
  cases r with
  | nil => rw [replaceTag] at htail; exact absurd htail (by simp)
  | cons x r1 =>
    by_cases hm : matchTag t (x :: r1) = true
    · rw [replaceTag, if_pos hm] at htail
      obtain ⟨d0, r0, hsh0, hd0, hr0⟩ := matchTag_shape t rep hrep
      rw [hsh0] at htail
      injection htail with he htl
      exact absurd he.symm ht
    · rw [replaceTag, if_neg hm] at htail
      injection htail with hx htail2
      cases r1 with
      | nil => rw [replaceTag] at htail2; exact absurd htail2 (by simp)
      | cons y r3 =>
        by_cases hm2 : matchTag t (y :: r3) = true
        · rw [replaceTag, if_pos hm2] at htail2
          obtain ⟨d0, r0, hsh0, hd0, hr0⟩ := matchTag_shape t rep hrep
          rw [hsh0] at htail2
          injection htail2 with he htl
          rw [← he] at hd
          exact absurd hd (by decide)
        · rw [replaceTag, if_neg hm2] at htail2
          injection htail2 with hy htail3
          have hok : tailOk r3 = true := by
            apply tailOk_replaceTag t rep hlt r3
            rw [htail3]; exact hr2
          rw [hx, hy]
          simp [matchTag, hd, hok]

theorem replaceTag_idem (t : Char) (rep : List Char)
    (hrep : matchTag t rep = true) (ht : t ≠ '=') (hlt : isLineTerm t = false) :
    ∀ l : List Char, replaceTag t rep (replaceTag t rep l) = replaceTag t rep l := by
  intro l
  induction l with
  | nil => rfl
  | cons c r ih =>
    by_cases hm : matchTag t (c :: r) = true
    · rw [replaceTag, if_pos hm]
      exact replaceTag_rep t rep hrep
    · rw [replaceTag, if_neg hm]
      have hm2 : ¬ matchTag t (c :: replaceTag t rep r) = true :=
        fun hx => hm (matchTag_cons_replace t rep hrep ht hlt c r hx)
      rw [replaceTag, if_neg hm2, ih]

theorem hasTag_cons (t c : Char) (l : List Char) (h : hasTag t l = true) :
    hasTag t (c :: l) = true := by
  rw [hasTag, Bool.or_eq_true]; exact Or.inr h

theorem hasTag_replaceTag (t : Char) (rep : List Char)
    (hrep : matchTag t rep = true) (ht : t ≠ '=') :
    ∀ l : List Char, hasTag t l = true → hasTag t (replaceTag t rep l) = true := by
  have htb : (t == '=') = false := by
    cases hbe : t == '=' with
    | false => rfl
    | true => exact absurd (eq_of_beq hbe) ht
  intro l
  induction l with
  | nil => intro h; simp [hasTag] at h
  | cons c r ih =>
    intro h
    by_cases hm : matchTag t (c :: r) = true
    · rw [replaceTag, if_pos hm]
      obtain ⟨d0, r0, hsh0, hd0, hr0⟩ := matchTag_shape t rep hrep
      rw [hsh0]
      simp [hasTag, startsTag]
    · rw [replaceTag, if_neg hm]
      rw [hasTag, Bool.or_eq_true] at h
      rcases h with h | h
      · cases r with
        | nil => simp [startsTag] at h
        | cons x r1 =>
          simp only [startsTag, Bool.and_eq_true, beq_iff_eq] at h
          obtain ⟨hc, hx⟩ := h
          subst hc
          rw [hx]
          have hm1 : matchTag t (t :: r1) = false := matchTag_head_ne t t r1 htb
          rw [replaceTag, if_neg (by simp [hm1])]
          simp [hasTag, startsTag]
      · exact hasTag_cons t c _ (ih h)

theorem hasTag_ne_replaceTag (t : Char) (rep : List Char) (t2 : Char)
    (hrep : matchTag t rep = true) (ht2 : t2 ≠ '=') (hnot : hasTag t2 rep = false) :
    ∀ l : List Char, hasTag t2 (replaceTag t rep l) = true → hasTag t2 l = true := by
  intro l
  induction l with
  | nil => intro h; rw [replaceTag] at h; simp [hasTag] at h
  | cons c r ih =>
    intro h
    by_cases hm : matchTag t (c :: r) = true
    · rw [replaceTag, if_pos hm] at h
      rw [hnot] at h
      exact Bool.noConfusion h
    · rw [replaceTag, if_neg hm] at h
      rw [hasTag, Bool.or_eq_true] at h
      rcases h with h | h
      · cases hrr : replaceTag t rep r with
        | nil => rw [hrr] at h; simp [startsTag] at h
        | cons x rr =>
          rw [hrr] at h
          simp only [startsTag, Bool.and_eq_true, beq_iff_eq] at h
          obtain ⟨hc, hx⟩ := h
          subst hc
          cases r with
          | nil => rw [replaceTag] at hrr; exact absurd hrr (by simp)
          | cons y r1 =>
            by_cases hm1 : matchTag t (y :: r1) = true
            · rw [replaceTag, if_pos hm1] at hrr
              obtain ⟨d0, r0, hsh0, hd0, hr0⟩ := matchTag_shape t rep hrep
              rw [hsh0] at hrr
              injection hrr with he htl
              exact absurd (hx.symm.trans he.symm) ht2
            · rw [replaceTag, if_neg hm1] at hrr
              injection hrr with hy htl
              rw [hy, hx]
              simp [hasTag, startsTag]
      · exact hasTag_cons t2 c r (ih h)

theorem hasTag_append_right (t : Char) (a b : List Char) (h : hasTag t b = true) :
    hasTag t (a ++ b) = true := by
  induction a with
  | nil => exact h
  | cons c a1 ih => exact hasTag_cons t c _ ih

theorem replaceTag_append_rep (t : Char) (rep : List Char)
    (hrep : matchTag t rep = true) :
    ∀ l : List Char, hasEq l = false → replaceTag t rep (l ++ rep) = l ++ rep := by
  intro l
  induction l with
  | nil => intro _; exact replaceTag_rep t rep hrep
  | cons c l1 ih =>
    intro he
    rw [hasEq, Bool.or_eq_false_iff] at he
    obtain ⟨hc, hl⟩ := he
    have hmh : matchTag t (c :: (l1 ++ rep)) = false := matchTag_head_ne t c _ hc
    show replaceTag t rep (c :: (l1 ++ rep)) = c :: (l1 ++ rep)
    rw [replaceTag, if_neg (by simp [hmh]), ih hl]

theorem hasEq_of_hasTag (t : Char) :
    ∀ l : List Char, hasTag t l = true → hasEq l = true := by
  intro l
  induction l with
  | nil => intro h; simp [hasTag] at h
  | cons c r ih =>
    intro h
    rw [hasTag, Bool.or_eq_true] at h
    rw [hasEq, Bool.or_eq_true]
    rcases h with h | h
    · left
      cases r with
      | nil => simp [startsTag] at h
      | cons x r1 =>
        simp only [startsTag, Bool.and_eq_true] at h
        exact h.1
    · right; exact ih h

/-- Claim C9: the URL normalizer is idempotent; applying upgradeUrl
twice yields the same result as applying it once. -/
theorem upgradeUrl_idem (u : List Char) : upgradeUrl (upgradeUrl u) = upgradeUrl u := by
  have hw_rep : matchTag 'w' wRepl = true := by decide
  have hs_rep : matchTag 's' sRepl = true := by decide
  have hw_ne : ('w' : Char) ≠ '=' := by decide
  have hs_ne : ('s' : Char) ≠ '=' := by decide
  have hw_lt : isLineTerm 'w' = false := by decide
  have hs_lt : isLineTerm 's' = false := by decide
  by_cases hw : hasTag 'w' u = true
  · have h1 : upgradeUrl u = replaceTag 'w' wRepl u := by rw [upgradeUrl, if_pos hw]
    have h2 : hasTag 'w' (replaceTag 'w' wRepl u) = true :=
      hasTag_replaceTag 'w' wRepl hw_rep hw_ne u hw
    rw [h1, upgradeUrl, if_pos h2]
    exact replaceTag_idem 'w' wRepl hw_rep hw_ne hw_lt u
  · by_cases hs : hasTag 's' u = true
    · have h1 : upgradeUrl u = replaceTag 's' sRepl u := by
        rw [upgradeUrl, if_neg hw, if_pos hs]
      have h2 : hasTag 's' (replaceTag 's' sRepl u) = true :=
        hasTag_replaceTag 's' sRepl hs_rep hs_ne u hs
      have h3 : ¬ hasTag 'w' (replaceTag 's' sRepl u) = true := fun hx =>
        hw (hasTag_ne_replaceTag 's' sRepl 'w' hs_rep hw_ne (by decide) u hx)
      rw [h1, upgradeUrl, if_neg h3, if_pos h2]
      exact replaceTag_idem 's' sRepl hs_rep hs_ne hs_lt u
    · by_cases he : hasEq u = true
      · have h1 : upgradeUrl u = u := by rw [upgradeUrl, if_neg hw, if_neg hs, if_pos he]
        rw [h1]; exact h1
      · have he2 : hasEq u = false := by
          cases heb : hasEq u
          · rfl
          · exact absurd heb he
        have h1 : upgradeUrl u = u ++ wRepl := by
          rw [upgradeUrl, if_neg hw, if_neg hs, if_neg (by simp [he2])]
        have h2 : hasTag 'w' (u ++ wRepl) = true :=
          hasTag_append_right 'w' u wRepl (by decide)
        rw [h1, upgradeUrl, if_pos h2]
        exact replaceTag_append_rep 'w' wRepl hw_rep u he2

/-- Claim C4, counterexample: the input a=b contains no recognized
size-suffix syntax (neither the equals-w nor the equals-s substring,
so neither rewrite pattern can match), yet upgradeUrl returns it
unchanged, without appending any size suffix: the output requests no
bounded maximum resolution. -/
theorem upgradeUrl_suffix_cex :
    hasTag 'w' ("a=b".toList) = false ∧ hasTag 's' ("a=b".toList) = false ∧
    upgradeUrl ("a=b".toList) = "a=b".toList ∧
    hasTag 'w' (upgradeUrl ("a=b".toList)) = false ∧
    hasTag 's' (upgradeUrl ("a=b".toList)) = false := by
  decide

/-- Claim C4, amended: upgradeUrl is a total function (it never
throws); it appends the default size suffix exactly when the input
contains no equals sign at all, and an input that contains an equals
sign but neither the equals-w nor the equals-s substring is returned
unchanged, possibly without any size suffix. -/
theorem upgradeUrl_suffix_amended (u : List Char) :
    (hasEq u = false → upgradeUrl u = u ++ wRepl) ∧
    (hasEq u = true → hasTag 'w' u = false → hasTag 's' u = false → upgradeUrl u = u) := by
  constructor
  · intro he
    have hw : ¬ hasTag 'w' u = true := fun hx => by
      rw [hasEq_of_hasTag 'w' u hx] at he; exact Bool.noConfusion he
    have hs : ¬ hasTag 's' u = true := fun hx => by
      rw [hasEq_of_hasTag 's' u hx] at he; exact Bool.noConfusion he
    rw [upgradeUrl, if_neg hw, if_neg hs, if_neg (by simp [he])]
  · intro he hw hs
    rw [upgradeUrl, if_neg (by simp [hw]), if_neg (by simp [hs]), if_pos he]

/-- Witness for the amended claim C4 at two concrete inputs: an input
without an equals sign gets the default suffix appended, and the input
a=b is returned unchanged. -/
theorem upgradeUrl_suffix_amended_witness :
    upgradeUrl ("abc".toList) = "abc".toList ++ wRepl ∧
    upgradeUrl ("a=b".toList) = "a=b".toList :=
  ⟨(upgradeUrl_suffix_amended ("abc".toList)).1 (by decide),
   (upgradeUrl_suffix_amended ("a=b".toList)).2 (by decide) (by decide) (by decide)⟩

/- ### Acquisition pipeline theorems -/

/-- Claim C2: with an element and no url, the pipeline attempts only
the direct element read: the privileged-fetch collaborator and the
cross-origin canvas load are never attempted, and when the element
read fails the pipeline immediately reports exhaustion. -/
theorem fetchImageBlob_element_only (env : FetchEnv) (el : ImgEl) :
    (fetchImageBlob env (some el) none).2 = [Strategy.elemRead] ∧
    Strategy.privFetch ∉ (fetchImageBlob env (some el) none).2 ∧
    Strategy.domCanvas ∉ (fetchImageBlob env (some el) none).2 ∧
    (∀ msg, grabFromElement env el = Except.error msg →
      (fetchImageBlob env (some el) none).1 = Except.error "All fetch methods failed") := by
  cases hg : grabFromElement env el with
  | ok b => simp [fetchImageBlob, hg]
  | error e => simp [fetchImageBlob, fetchViaUrlMethods, hg]

/-- A fully failing environment: every collaborator rejects. -/
def demoEnvFail : FetchEnv :=
  { toBlobOnPage := fun _ => Except.error "tainted",
    fetchViaBackground := fun _ => Except.error "bg",
    fetchViaDomCanvas := fun _ => Except.error "dom" }

/-- A loaded on-page element. -/
def demoEl : ImgEl := ⟨true, 100, 80⟩

/-- Witness for claim C2: with a failing element read and no url, the
pipeline reports exhaustion. -/
theorem fetchImageBlob_element_only_witness :
    (fetchImageBlob demoEnvFail (some demoEl) none).1 =
      Except.error "All fetch methods failed" :=
  (fetchImageBlob_element_only demoEnvFail demoEl).2.2.2 "tainted" rfl

/-- Claim C3: with a url and no element, the element-read strategy is
never attempted; the privileged fetch is attempted before the
cross-origin canvas strategy, which runs exactly when the privileged
fetch fails. -/
theorem fetchImageBlob_url_only (env : FetchEnv) (u : List Char) (hu : u.isEmpty = false) :
    Strategy.elemRead ∉ (fetchImageBlob env none (some u)).2 ∧
    (∀ b, env.fetchViaBackground u = Except.ok b →
      fetchImageBlob env none (some u) = (Except.ok b, [Strategy.privFetch])) ∧
    (∀ e, env.fetchViaBackground u = Except.error e →
      (fetchImageBlob env none (some u)).2 = [Strategy.privFetch, Strategy.domCanvas]) ∧
    (Strategy.domCanvas ∈ (fetchImageBlob env none (some u)).2 →
      ∃ e, env.fetchViaBackground u = Except.error e) := by
  refine ⟨?_, ?_, ?_, ?_⟩
  · cases hb : env.fetchViaBackground u with
    | ok b => simp [fetchImageBlob, fetchViaUrlMethods, hu, hb]
    | error e =>
      cases hc : env.fetchViaDomCanvas u with
      | ok b2 => simp [fetchImageBlob, fetchViaUrlMethods, hu, hb, hc]
      | error e2 => simp [fetchImageBlob, fetchViaUrlMethods, hu, hb, hc]
  · intro b hb
    simp [fetchImageBlob, fetchViaUrlMethods, hu, hb]
  · intro e he
    cases hc : env.fetchViaDomCanvas u with
    | ok b2 => simp [fetchImageBlob, fetchViaUrlMethods, hu, he, hc]
    | error e2 => simp [fetchImageBlob, fetchViaUrlMethods, hu, he, hc]
  · intro hmem
    cases hb : env.fetchViaBackground u with
    | ok b => simp [fetchImageBlob, fetchViaUrlMethods, hu, hb] at hmem
    | error e => exact ⟨e, rfl⟩

/-- An environment whose background fetch succeeds. -/
def demoEnvBgOk : FetchEnv :=
  { toBlobOnPage := fun _ => Except.error "tainted",
    fetchViaBackground := fun _ => Except.ok ⟨"image/png", [9]⟩,
    fetchViaDomCanvas := fun _ => Except.error "dom" }

/-- Witness for claim C3: with only a url and a succeeding background
fetch, the pipeline attempts exactly the privileged fetch. -/
theorem fetchImageBlob_url_only_witness :
    fetchImageBlob demoEnvBgOk none (some ("u".toList)) =
      (Except.ok ⟨"image/png", [9]⟩, [Strategy.privFetch]) :=
  (fetchImageBlob_url_only demoEnvBgOk ("u".toList) (by decide)).2.1 ⟨"image/png", [9]⟩ rfl

/-- Claim C6: when the element read, the privileged fetch and the
cross-origin canvas all fail for a reference with both an element and
a url, the pipeline reports the single aggregate exhaustion failure
rather than any of the per-strategy errors. -/
theorem fetchImageBlob_all_fail_aggregate (env : FetchEnv) (el : ImgEl) (u : List Char)
    (hu : u.isEmpty = false) (mA mB mC : String)
    (hA : grabFromElement env el = Except.error mA)
    (hB : env.fetchViaBackground u = Except.error mB)
    (hC : env.fetchViaDomCanvas u = Except.error mC) :
    fetchImageBlob env (some el) (some u) =
      (Except.error "All fetch methods failed",
       [Strategy.elemRead, Strategy.privFetch, Strategy.domCanvas]) := by
  simp [fetchImageBlob, fetchViaUrlMethods, hA, hB, hC, hu]

/-- Witness for claim C6 on the fully failing environment. -/
theorem fetchImageBlob_all_fail_aggregate_witness :
    fetchImageBlob demoEnvFail (some demoEl) (some ("u".toList)) =
      (Except.error "All fetch methods failed",
       [Strategy.elemRead, Strategy.privFetch, Strategy.domCanvas]) :=
  fetchImageBlob_all_fail_aggregate demoEnvFail demoEl ("u".toList) (by decide)
    "tainted" "bg" "dom" rfl rfl rfl

/-- Claim C5: when the element read is unavailable or fails, the
privileged fetch receives an authorization-denied 403 response on the
first url and a successful response on the no-gm variant url, then
acquisition succeeds via the privileged fetch and the cross-origin
canvas strategy is never attempted. -/
theorem fetchImageBlob_bg_403_variant_success
    (env : FetchEnv) (net : Net) (imgEl : Option ImgEl) (u : List Char)
    (resp resp2 : HttpResp)
    (henv : env.fetchViaBackground = bgFetchImage net)
    (hA : imgEl = none ∨ ∃ el msg, imgEl = some el ∧ grabFromElement env el = Except.error msg)
    (hu : u.isEmpty = false)
    (h1 : net.fetchCred u = Except.ok resp)
    (h403 : resp.status = 403)
    (h2 : net.fetchCred (noGmAlt u) = Except.ok resp2)
    (hok : respOk resp2.status = true) :
    (fetchImageBlob env imgEl (some u)).1 = Except.ok resp2.body ∧
    Strategy.domCanvas ∉ (fetchImageBlob env imgEl (some u)).2 := by
  have hbg : env.fetchViaBackground u = Except.ok resp2.body := by
    have hro : respOk 403 = false := by decide
    simp [henv, bgFetchImage, h1, h403, hro, h2, hok]
  rcases hA with hA | ⟨el, msg, hA, hg⟩
  · subst hA
    simp [fetchImageBlob, fetchViaUrlMethods, hu, hbg]
  · subst hA
    simp [fetchImageBlob, fetchViaUrlMethods, hu, hbg, hg]

/-- A network giving 403 on the first url and success on the variant. -/
def demoNet : Net :=
  { fetchCred := fun u =>
      if u == ("x-no-gm".toList) then Except.ok ⟨403, ⟨"image/jpeg", [3]⟩⟩
      else if u == ("x-no".toList) then Except.ok ⟨200, ⟨"image/jpeg", [4]⟩⟩
      else Except.error "net",
    fetchPlain := fun _ => Except.error "net" }

/-- An environment routing the privileged fetch through the 403 network. -/
def demoEnv403 : FetchEnv :=
  { toBlobOnPage := fun _ => Except.error "tainted",
    fetchViaBackground := bgFetchImage demoNet,
    fetchViaDomCanvas := fun _ => Except.error "dom" }

/-- Witness for claim C5 at the concrete 403-then-success network. -/
theorem fetchImageBlob_bg_403_variant_success_witness :
    (fetchImageBlob demoEnv403 none (some ("x-no-gm".toList))).1 =
      Except.ok ⟨"image/jpeg", [4]⟩ ∧
    Strategy.domCanvas ∉ (fetchImageBlob demoEnv403 none (some ("x-no-gm".toList))).2 :=
  fetchImageBlob_bg_403_variant_success demoEnv403 demoNet none ("x-no-gm".toList)
    ⟨403, ⟨"image/jpeg", [3]⟩⟩ ⟨200, ⟨"image/jpeg", [4]⟩⟩ rfl (Or.inl rfl) rfl
    rfl rfl rfl rfl

/- ### Format normalizer theorem -/

/-- Claim C8: a blob that already declares the png type is returned by
ensurePng unchanged, hence byte identical; the conversion pipeline
runs exactly for blobs declaring a different format. -/
theorem ensurePng_png_identity (reencode : Blob → Except String Blob) (b : Blob) :
    (b.type = "image/png" → ensurePng reencode b = Except.ok b) ∧
    (b.type ≠ "image/png" → ensurePng reencode b = reencode b) := by
  constructor
  · intro h; rw [ensurePng, if_pos h]
  · intro h; rw [ensurePng, if_neg h]

/-- Witness for claim C8: a png blob passes through unchanged, a jpeg
blob is handed to the conversion pipeline. -/
theorem ensurePng_png_identity_witness :
    ensurePng (fun b => Except.ok b) ⟨"image/png", [1, 2]⟩ = Except.ok ⟨"image/png", [1, 2]⟩ ∧
    ensurePng (fun b => Except.ok b) ⟨"image/jpeg", [1, 2]⟩ = Except.ok ⟨"image/jpeg", [1, 2]⟩ :=
  ⟨(ensurePng_png_identity (fun b => Except.ok b) ⟨"image/png", [1, 2]⟩).1 rfl,
   (ensurePng_png_identity (fun b => Except.ok b) ⟨"image/jpeg", [1, 2]⟩).2 (by decide)⟩

/- ### Cache theorems -/

/-- Claim C10: a prefetch for a target already cached with a live blob
is a no-op: the three cache variables are unchanged and no fetch is
initiated. -/
theorem prefetch_same_url_noop (s : CacheState) (el : Option ImgEl)
    (u : List Char) (b : Blob)
    (hurl : s.cachedUrl = some u) (hblob : s.cachedBlob = some b) :
    prefetchStart s el (some u) = (s, false) := by
  rw [prefetchStart]
  by_cases h1 : (!elTruthy el && !urlTruthy (some u)) = true
  · rw [if_pos h1]
  · have h2 : (some u == s.cachedUrl && blobTruthy s.cachedBlob) = true := by
      rw [hurl, hblob]; simp [blobTruthy]
    rw [if_neg h1, if_pos h2]

/-- Witness for claim C10 at a concrete warm cache state. -/
theorem prefetch_same_url_noop_witness :
    prefetchStart ⟨some ⟨"image/png", [7]⟩, some ("u".toList), none⟩ none (some ("u".toList)) =
      (⟨some ⟨"image/png", [7]⟩, some ("u".toList), none⟩, false) :=
  prefetch_same_url_noop ⟨some ⟨"image/png", [7]⟩, some ("u".toList), none⟩ none
    ("u".toList) ⟨"image/png", [7]⟩ rfl rfl

/-- A prefetch whose synchronous part reports that a fetch started has
cleared the blob slot and installed the new url and element. -/
theorem prefetchStart_started (s : CacheState) (el : Option ImgEl) (u : Option (List Char))
    (h : (prefetchStart s el u).2 = true) :
    prefetchStart s el u = (⟨none, u, el⟩, true) := by
  rw [prefetchStart] at h ⊢
  by_cases h1 : (!elTruthy el && !urlTruthy u) = true
  · rw [if_pos h1] at h; simp at h
  · rw [if_neg h1] at h ⊢
    by_cases h2 : (u == s.cachedUrl && blobTruthy s.cachedBlob) = true
    · rw [if_pos h2] at h; simp at h
    · rw [if_neg h2]

/-- Claim C1: two prefetch interactions with distinct target keys, the
first starting a fetch and the second beginning before that fetch
resolves. Whatever order the two fetch completions land in, and also
when only the stale first fetch has landed, the cache holds only the
bytes fetched for the second target, or is empty; never the bytes of
the first. -/
theorem prefetch_stale_fetch_never_caches
    (s0 : CacheState) (elA elB : Option ImgEl) (uA uB : Option (List Char))
    (pngA pngB : Option Blob)
    (hne : uA ≠ uB)
    (hBreal : (!elTruthy elB && !urlTruthy uB) = false)
    (hstart : (prefetchStart s0 elA uA).2 = true) :
    ((prefetchStart (prefetchStart s0 elA uA).1 elB uB).2 = true) ∧
    ((prefetchComplete (prefetchStart (prefetchStart s0 elA uA).1 elB uB).1
        uA pngA).cachedBlob = none) ∧
    (((prefetchComplete (prefetchComplete (prefetchStart (prefetchStart s0 elA uA).1
          elB uB).1 uA pngA) uB pngB).cachedBlob = none) ∨
     ((prefetchComplete (prefetchComplete (prefetchStart (prefetchStart s0 elA uA).1
          elB uB).1 uA pngA) uB pngB).cachedBlob = pngB)) ∧
    (((prefetchComplete (prefetchComplete (prefetchStart (prefetchStart s0 elA uA).1
          elB uB).1 uB pngB) uA pngA).cachedBlob = none) ∨
     ((prefetchComplete (prefetchComplete (prefetchStart (prefetchStart s0 elA uA).1
          elB uB).1 uB pngB) uA pngA).cachedBlob = pngB)) := by
  have hBne : (uB == uA) = false := by
    cases hbe : uB == uA with
    | false => rfl
    | true => exact absurd (eq_of_beq hbe).symm hne
  have h1 := prefetchStart_started s0 elA uA hstart
  have hA1 : (prefetchStart s0 elA uA).1 = (⟨none, uA, elA⟩ : CacheState) :=
    congrArg Prod.fst h1
  rw [hA1]
  have h2 : prefetchStart (⟨none, uA, elA⟩ : CacheState) elB uB = (⟨none, uB, elB⟩, true) := by
    rw [prefetchStart, if_neg (by simp [hBreal]), if_neg (by simp [blobTruthy])]
  have hA2 : (prefetchStart (⟨none, uA, elA⟩ : CacheState) elB uB).1 =
      (⟨none, uB, elB⟩ : CacheState) := congrArg Prod.fst h2
  have hA2b : (prefetchStart (⟨none, uA, elA⟩ : CacheState) elB uB).2 = true :=
    congrArg Prod.snd h2
  rw [hA2]
  have h3 : prefetchComplete (⟨none, uB, elB⟩ : CacheState) uA pngA = ⟨none, uB, elB⟩ := by
    cases pngA with
    | none => rfl
    | some p => simp [prefetchComplete, hBne]
  refine ⟨hA2b, ?_, ?_, ?_⟩
  · rw [h3]
  · rw [h3]
    cases pngB with
    | none => exact Or.inl rfl
    | some p =>
      right
      simp [prefetchComplete]
  · cases pngB with
    | none =>
      left
      rw [show prefetchComplete (⟨none, uB, elB⟩ : CacheState) uB none =
            (⟨none, uB, elB⟩ : CacheState) from rfl]
      rw [h3]
    | some p =>
      right
      have h4 : prefetchComplete (⟨none, uB, elB⟩ : CacheState) uB (some p) =
          (⟨some p, uB, elB⟩ : CacheState) := by simp [prefetchComplete]
      rw [h4]
      cases pngA with
      | none => rfl
      | some q => simp [prefetchComplete, hBne]

/-- An empty initial cache state. -/
def demoS0 : CacheState := ⟨none, none, none⟩

/-- Target key of the first demo interaction. -/
def demoUA : Option (List Char) := some ("a".toList)

/-- Target key of the second demo interaction. -/
def demoUB : Option (List Char) := some ("b".toList)

/-- Bytes fetched for the first demo target. -/
def demoPA : Option Blob := some ⟨"image/png", [1]⟩

/-- Bytes fetched for the second demo target. -/
def demoPB : Option Blob := some ⟨"image/png", [2]⟩

/-- Witness for claim C1 at two concrete overlapping interactions. -/
theorem prefetch_stale_fetch_never_caches_witness :
    ((prefetchStart (prefetchStart demoS0 none demoUA).1 none demoUB).2 = true) ∧
    ((prefetchComplete (prefetchStart (prefetchStart demoS0 none demoUA).1 none demoUB).1
        demoUA demoPA).cachedBlob = none) ∧
    (((prefetchComplete (prefetchComplete (prefetchStart (prefetchStart demoS0 none demoUA).1
          none demoUB).1 demoUA demoPA) demoUB demoPB).cachedBlob = none) ∨
     ((prefetchComplete (prefetchComplete (prefetchStart (prefetchStart demoS0 none demoUA).1
          none demoUB).1 demoUA demoPA) demoUB demoPB).cachedBlob = demoPB)) ∧
    (((prefetchComplete (prefetchComplete (prefetchStart (prefetchStart demoS0 none demoUA).1
          none demoUB).1 demoUB demoPB) demoUA demoPA).cachedBlob = none) ∨
     ((prefetchComplete (prefetchComplete (prefetchStart (prefetchStart demoS0 none demoUA).1
          none demoUB).1 demoUB demoPB) demoUA demoPA).cachedBlob = demoPB)) :=
  prefetch_stale_fetch_never_caches demoS0 none none demoUA demoUB demoPA demoPB
    (by decide) (by decide) (by decide)

/- ### Focus wait theorems -/

/-- When focus is never observed, the polling loop reports false for
every starting tick and any amount of fuel. -/
theorem awaitFocusGo_never (focusAt : Nat → Bool) (hnever : ∀ k, focusAt k = false) :
    ∀ fuel tick, awaitFocusGo focusAt tick fuel = false := by
  intro fuel
  induction fuel with
  | zero => intro tick; rfl
  | succ n ih =>
    intro tick
    rw [awaitFocusGo, hnever tick, if_neg Bool.false_ne_true]
    by_cases h : 50 * tick > 2000
    · rw [if_pos h]
    · rw [if_neg h]; exact ih (tick + 1)

/-- Claim C7: when the document is unfocused at the start of a
context-menu delivery and focus is never observed by the 50
millisecond poll within its 2000 millisecond bound, the focus wait
returns false, and the handler reports a false response with an error
toast without ever attempting the clipboard write. -/
theorem contextMenu_focus_timeout (focusAt : Nat → Bool)
    (getBlob : Except String Blob) (write : Blob → Except String Unit)
    (hnever : ∀ k, focusAt k = false) :
    awaitFocus focusAt = false ∧
    copyImageFromContextMenu false focusAt getBlob write =
      { ok := false, toastMsg := "✗ Page lost focus — try refreshing the page and retry",
        toastIsError := true, clipboardAttempted := false } := by
  have hf : awaitFocus focusAt = false := awaitFocusGo_never focusAt hnever 41 1
  refine ⟨hf, ?_⟩
  unfold copyImageFromContextMenu
  rw [if_pos (by simp [hf])]

/-- Witness for claim C7 with a permanently unfocused document. -/
theorem contextMenu_focus_timeout_witness :
    awaitFocus (fun _ => false) = false ∧
    copyImageFromContextMenu false (fun _ => false) (Except.error "noBlob")
        (fun _ => Except.ok ()) =
      { ok := false, toastMsg := "✗ Page lost focus — try refreshing the page and retry",
        toastIsError := true, clipboardAttempted := false } :=
  contextMenu_focus_timeout (fun _ => false) (Except.error "noBlob")
    (fun _ => Except.ok ()) (fun _ => rfl)

end GPCF
